import Mathlib

/-!
Verification of the conference API server (`conference.py`, `models.py`).

The Python handlers are shallowly embedded as pure Lean functions:
datastore queries become operations on the fetched entity lists, the single
well-known memcache entry becomes an `Option String`, and raised exceptions
become `Except PyError`.  Each definition names the source function and
lines it embeds.
-/

/-- The error kinds the handlers can raise: the endpoints exceptions used in
`conference.py` plus the Python-level errors the code can hit. -/
inductive PyError where
  /-- `endpoints.UnauthorizedException` -/
  | unauthorized (msg : String)
  /-- `endpoints.BadRequestException` -/
  | badRequest (msg : String)
  /-- `endpoints.NotFoundException` -/
  | notFound (msg : String)
  /-- `endpoints.ForbiddenException` -/
  | forbidden (msg : String)
  /-- `ConflictException` (models.py 21-23) -/
  | conflict (msg : String)
  /-- Python `AttributeError` from reading an attribute that does not exist -/
  | attributeError (msg : String)
  /-- Python `ValueError` from `datetime.strptime` on a malformed string -/
  | valueError
  /-- ndb `BadValueError` from assigning an ill-typed property value -/
  | badValue
deriving DecidableEq

/-- A Python `datetime.time` restricted to the hour and minute fields; the
code only ever builds times via `strptime(s[:5], '%H:%M').time()`, so
seconds and microseconds are always zero. -/
structure PyTime where
  hour : Nat
  minute : Nat
deriving DecidableEq

/-- Python `time` comparison `a < b`: lexicographic on (hour, minute). -/
def PyTime.lt (a b : PyTime) : Prop :=
  a.hour < b.hour ∨ (a.hour = b.hour ∧ a.minute < b.minute)

/-- Python `time` comparison `a <= b`: lexicographic on (hour, minute). -/
def PyTime.le (a b : PyTime) : Prop :=
  a.hour < b.hour ∨ (a.hour = b.hour ∧ a.minute ≤ b.minute)

instance : DecidableRel PyTime.lt := fun a b => by
  unfold PyTime.lt; infer_instance

instance : DecidableRel PyTime.le := fun a b => by
  unfold PyTime.le; infer_instance

/-- A Python `datetime.date`. -/
structure PyDate where
  year : Nat
  month : Nat
  day : Nat
deriving DecidableEq

/-- Python `date` comparison `a < b`: lexicographic on (year, month, day). -/
def PyDate.lt (a b : PyDate) : Prop :=
  a.year < b.year ∨ (a.year = b.year ∧
    (a.month < b.month ∨ (a.month = b.month ∧ a.day < b.day)))

instance : DecidableRel PyDate.lt := fun a b => by
  unfold PyDate.lt; infer_instance

-- - - - Featured Speaker (conference.py 1011-1049) - - - -

/-- One row of the `_cacheFeaturedSpeaker` fetch: the `name` and `speakers`
projection of a `Session` entity (conference.py 1023-1024). -/
structure ProjSession where
  name : String
  speakers : List String
deriving DecidableEq

/-- The inner `for speaker in session.speakers` loop of
`_cacheFeaturedSpeaker` (conference.py 1030-1034) over one session's speaker
list: a speaker not yet in `speaker_container` (`seen`) is appended to it; a
speaker already in it overwrites `feat_speaker` (`feat`). -/
def featInner : List String → List String → String → List String × String
  | [], seen, feat => (seen, feat)
  | sp :: rest, seen, feat =>
    if sp ∈ seen then featInner rest seen sp
    else featInner rest (seen ++ [sp]) feat

/-- The outer `for session in sessions` loop of `_cacheFeaturedSpeaker`
(conference.py 1029-1034), threading `speaker_container` and `feat_speaker`
through the sessions in fetch order. -/
def featOuter : List ProjSession → List String → String → List String × String
  | [], seen, feat => (seen, feat)
  | s :: rest, seen, feat =>
    match featInner s.speakers seen feat with
    | (seen2, feat2) => featOuter rest seen2 feat2

/-- Python `', '.join`. -/
def joinComma : List String → String
  | [] => ""
  | [x] => x
  | x :: rest => x ++ ", " ++ joinComma rest

/-- `_cacheFeaturedSpeaker` (conference.py 1014-1049): scan the conference's
sessions for a speaker with multiple sessions, then either set the single
memcache entry to the composed message or delete it.  The input list is the
fetch result in datastore order; the output is the returned message together
with the new state of the `FEATURED_SPEAKER` memcache entry. -/
def cacheFeaturedSpeaker (sessions : List ProjSession) : String × Option String :=
  let feat_speaker := (featOuter sessions [] "").2
  let feat_sessions :=
    (sessions.filter (fun s => decide (feat_speaker ∈ s.speakers))).map (fun s => s.name)
  if feat_speaker ≠ "" then
    let message := feat_speaker ++ " is the featured speaker for the following sessions: " ++
      joinComma feat_sessions
    (message, some message)
  else ("", none)

/-- The occurrences of a scan (here: the flattened (session, speaker) pair
sequence) whose value already appeared strictly earlier in the scan; `pre`
holds the part of the scan already passed.  Used to characterise which
speaker the code's accumulator loop ends up selecting. -/
def dupOccurrences : List String → List String → List String
  | _, [] => []
  | pre, x :: rest => (if x ∈ pre then [x] else []) ++ dupOccurrences (pre ++ [x]) rest

/-- Follows the spec's words (claim C1): the first value of the scan that is
encountered for a second time — "the first speaker name encountered twice
across the scan"; `pre` holds the part of the scan already passed. -/
def specFirstRepeatFrom : List String → List String → String
  | _, [] => ""
  | pre, x :: rest => if x ∈ pre then x else specFirstRepeatFrom (pre ++ [x]) rest

-- - - - Profile and Conference entities (models.py 26-32, 59-70) - - - -

/-- `models.Profile` (models.py 26-32), restricted to the two fields the
verified operations read or write. -/
structure Profile where
  conferenceKeysToAttend : List String
  session_wishlist : List String
deriving DecidableEq

/-- `models.Conference` (models.py 59-70).  Integer properties are Python
ints (unbounded), so they are embedded as `Int`. -/
structure Conference where
  name : String
  description : Option String
  organizerUserId : String
  topics : List String
  city : String
  startDate : Option PyDate
  month : Int
  endDate : Option PyDate
  maxAttendees : Int
  seatsAvailable : Int
deriving DecidableEq

-- - - - Registration (conference.py 508-554) - - - -

/-- `_conferenceRegistration` (conference.py 508-554): register (`reg =
true`) or unregister the caller for the conference `wsck`.  The body runs in
one cross-group transaction, so a raised exception aborts it and no state
change is persisted: errors carry no updated state.  On success the updated
Profile and Conference (both of which the code `put`s) and the returned
boolean are produced. -/
def conferenceRegistration (reg : Bool) (wsck : String) (prof : Profile)
    (conf : Conference) : Except PyError (Profile × Conference × Bool) :=
  if reg then
    if wsck ∈ prof.conferenceKeysToAttend then
      .error (.conflict "You have already registered for this conference")
    else if conf.seatsAvailable ≤ 0 then
      .error (.conflict "There are no seats available.")
    else
      .ok ({ prof with conferenceKeysToAttend := prof.conferenceKeysToAttend ++ [wsck] },
           { conf with seatsAvailable := conf.seatsAvailable - 1 }, true)
  else
    if wsck ∈ prof.conferenceKeysToAttend then
      .ok ({ prof with conferenceKeysToAttend := prof.conferenceKeysToAttend.erase wsck },
           { conf with seatsAvailable := conf.seatsAvailable + 1 }, true)
    else
      .ok (prof, conf, false)

/-- One conference plus the profiles of a fixed population of callers
(caller `i` owns `profs[i]`); the state acted on by a sequence of
registration calls against that conference. -/
structure RegState where
  conf : Conference
  profs : List Profile
deriving DecidableEq

/-- One `registerForConference` (`op.2 = true`) or
`unregisterFromConference` call by caller `op.1` against the conference
`wsck`: on success both updated records are persisted; a raised
`ConflictException` aborts the transaction and leaves the state unchanged.
Calls naming a caller outside the population are ignored. -/
def applyRegOp (wsck : String) (st : RegState) (op : Nat × Bool) : RegState :=
  if op.1 < st.profs.length then
    match conferenceRegistration op.2 wsck (st.profs.getD op.1 ⟨[], []⟩) st.conf with
    | .error _ => st
    | .ok (p, c, _) => ⟨c, st.profs.set op.1 p⟩
  else st

/-- Run a sequence of registration/unregistration calls. -/
def runRegOps (wsck : String) (st : RegState) (ops : List (Nat × Bool)) : RegState :=
  ops.foldl (applyRegOp wsck) st

/-- Total number of occurrences of `wsck` across the callers' attending
lists. -/
def attendCount (wsck : String) (profs : List Profile) : Int :=
  (profs.map (fun p => (p.conferenceKeysToAttend.count wsck : Int))).sum

/-- The registration invariant: seats plus registrations equals
`maxAttendees`, seats are non-negative, and no caller holds the conference
more than once. -/
def RegInv (wsck : String) (st : RegState) : Prop :=
  st.conf.seatsAvailable + attendCount wsck st.profs = st.conf.maxAttendees ∧
  0 ≤ st.conf.seatsAvailable ∧
  ∀ p ∈ st.profs, p.conferenceKeysToAttend.count wsck ≤ 1

-- - - - Wishlist (conference.py 929-988) - - - -

/-- `_sessionWishlist` (conference.py 929-958): add (`add = true`) or remove
the key `s_key` from the caller's wishlist.  `retval` starts `False`; the
add branch raises on a duplicate and otherwise appends and returns `True`;
the remove branch removes a present key and leaves `retval` at `False`
either way. -/
def sessionWishlist (add : Bool) (s_key : String) (prof : Profile) :
    Except PyError (Profile × Bool) :=
  if add then
    if s_key ∈ prof.session_wishlist then
      .error (.conflict "Session has already registered in your wishlist")
    else
      .ok ({ prof with session_wishlist := prof.session_wishlist ++ [s_key] }, true)
  else
    if s_key ∈ prof.session_wishlist then
      .ok ({ prof with session_wishlist := prof.session_wishlist.erase s_key }, false)
    else
      .ok (prof, false)

/-- `addSessionToWishlist` (conference.py 961-973).  The handler resolves no
session entity: `s_key` is used only as a string, so the embedding takes no
session store at all. -/
def addSessionToWishlist (s_key : String) (prof : Profile) :
    Except PyError (Profile × Bool) :=
  sessionWishlist true s_key prof

/-- `removeSessionFromWishlist` (conference.py 976-988). -/
def removeSessionFromWishlist (s_key : String) (prof : Profile) :
    Except PyError (Profile × Bool) :=
  sessionWishlist false s_key prof

-- - - - Session entity and queries (models.py 125-133, conference.py 722-812) - - - -

/-- `models.Session` (models.py 125-133). -/
structure Session where
  name : String
  speakers : List String
  highlights : List String
  sess_date : PyDate
  sess_time : PyTime
  duration : Int
  sess_type : String
  location : String
deriving DecidableEq

/-- An `ndb.Query` object: the sequence of entities the query would fetch,
in query order.  `ndb.Query` defines neither `__nonzero__` nor `__len__`,
so Python's `bool(query)` is `True` regardless of the result set — that
truthiness is `pyBool`. -/
structure Query (α : Type) where
  results : List α

/-- Python truthiness of an `ndb.Query` object (always `True`; see above). -/
def Query.pyBool {α : Type} (_q : Query α) : Bool := true

/-- The `.order(Session.sess_date).order(Session.sess_time)` sort key:
date-then-time, lexicographically. -/
def sessionDateTimeLe (a b : Session) : Prop :=
  PyDate.lt a.sess_date b.sess_date ∨
    (a.sess_date = b.sess_date ∧ PyTime.le a.sess_time b.sess_time)

instance : DecidableRel sessionDateTimeLe := fun a b => by
  unfold sessionDateTimeLe; infer_instance

/-- The `.order(Session.sess_time)` sort key. -/
def sessionTimeLe (a b : Session) : Prop :=
  PyTime.le a.sess_time b.sess_time

instance : DecidableRel sessionTimeLe := fun a b => by
  unfold sessionTimeLe; infer_instance

/-- `getConferenceSessions` (conference.py 727-747): the ancestor query over
the conference's sessions (`confSessions`, in datastore order), ordered by
`sess_date` then `sess_time`; `if not sessions:` then tests the Query
object's truthiness before the results are converted to forms. -/
def getConferenceSessions (confSessions : List Session) :
    Except PyError (List Session) :=
  let sessions : Query Session := ⟨List.insertionSort sessionDateTimeLe confSessions⟩
  if sessions.pyBool = false then
    .error (.notFound "No sessions were found for the conference")
  else
    .ok sessions.results

/-- `getSessionsBySpeaker` (conference.py 789-812): a kindless query over
all sessions (`allSessions`) filtered on the repeated `speakers` property
(which matches when any listed value equals the argument), ordered by date
then time; the emptiness test again sees the Query object. -/
def getSessionsBySpeaker (speaker : String) (allSessions : List Session) :
    Except PyError (List Session) :=
  if speaker = "" then .error (.badRequest "Required field is missing")
  else
    let sessions : Query Session :=
      ⟨List.insertionSort sessionDateTimeLe
        (allSessions.filter (fun s => decide (speaker ∈ s.speakers)))⟩
    if sessions.pyBool = false then .error (.notFound "No sessions were found")
    else .ok sessions.results

/-- The combined request message of `getConferenceSessionsByType`:
`SessionByTypeQueryForm` (models.py 151-152, whose single declared field is
`session_type`) plus the `websafeConferenceKey` path parameter
(conference.py 108-111). -/
structure SessionByTypeRequest where
  session_type : String
  websafeConferenceKey : String
deriving DecidableEq

/-- Python attribute lookup on the combined request message: a protorpc
message exposes exactly its declared fields as attributes, and reading any
other name raises `AttributeError`. -/
def SessionByTypeRequest.getattr (r : SessionByTypeRequest) (attr : String) :
    Option String :=
  if attr = "session_type" then some r.session_type
  else if attr = "websafeConferenceKey" then some r.websafeConferenceKey
  else none

/-- `getConferenceSessionsByType` (conference.py 755-781).  The handler
reads `request.sess_type` twice (lines 763 and 771) even though the form's
field is named `session_type`; the embedding performs the same two dynamic
attribute lookups. -/
def getConferenceSessionsByType (request : SessionByTypeRequest)
    (confSessions : List Session) : Except PyError (List Session) :=
  match request.getattr "sess_type" with
  | none => .error (.attributeError "sess_type")
  | some checkedValue =>
    if checkedValue = "" then .error (.badRequest "Required field is missing")
    else
      match request.getattr "sess_type" with
      | none => .error (.attributeError "sess_type")
      | some filterValue =>
        let sessions : Query Session :=
          ⟨List.insertionSort sessionDateTimeLe
            (confSessions.filter (fun s => decide (s.sess_type = filterValue)))⟩
        if sessions.pyBool = false then .error (.notFound "No session were found")
        else .ok sessions.results

-- - - - Time-window query (conference.py 831-850, 898-923) - - - -

/-- `_filterSessionByTime` (conference.py 831-850): a query for the
conference's sessions with `sess_time < stop_time`, ordered by time and
fetched, then filtered in memory to `sess_time >= start_time` (the caller
passes the Python default `time(0, 0)`). -/
def filterSessionByTime (confSessions : List Session)
    (stop_time start_time : PyTime) : List Session :=
  let step_one := List.insertionSort sessionTimeLe
    (confSessions.filter (fun s => decide (PyTime.lt s.sess_time stop_time)))
  step_one.filter (fun s => decide (PyTime.le start_time s.sess_time))

/-- `nonWorkshopBeforeSeven` (conference.py 898-923): sessions before 19:00
via `_filterSessionByTime` (with the default start time `00:00`), then the
list comprehension drops sessions whose `sess_type` equals `'Workshop'`.
No emptiness check is made, so an empty result is returned as-is. -/
def nonWorkshopBeforeSeven (confSessions : List Session) : List Session :=
  let stop_time : PyTime := ⟨19, 0⟩
  (filterSessionByTime confSessions stop_time ⟨0, 0⟩).filter
    (fun s => decide (s.sess_type ≠ "Workshop"))

-- - - - Conference creation (conference.py 65-70, 182-231) - - - -

/-- The inbound `ConferenceForm` (models.py 73-87) as the handler sees it:
unset scalar fields are `None`, the repeated `topics` field defaults to the
empty list.  `websafeKey` and `organizerDisplayName` are deleted from the
working dict before use (conference.py 195-196) and are omitted here. -/
structure ConferenceFormIn where
  name : Option String
  description : Option String
  organizerUserId : Option String
  topics : List String
  city : Option String
  startDate : Option String
  month : Option Int
  maxAttendees : Option Int
  seatsAvailable : Option Int
  endDate : Option String
deriving DecidableEq

/-- Digit accumulator for `strptimeDate`. -/
def parseDigitsAux : Nat → List Char → Option Nat
  | acc, [] => some acc
  | acc, c :: rest =>
    if c.isDigit then parseDigitsAux (acc * 10 + (c.toNat - 48)) rest else none

/-- A non-empty all-digit character run as a decimal number. -/
def parseDigits (cs : List Char) : Option Nat :=
  if cs = [] then none else parseDigitsAux 0 cs

/-- Python `str.split('-')` on a character list. -/
def splitDash : List Char → List (List Char)
  | [] => [[]]
  | c :: rest =>
    if c = '-' then [] :: splitDash rest
    else
      match splitDash rest with
      | [] => [[c]]
      | h :: t => (c :: h) :: t

/-- `datetime.strptime(s, '%Y-%m-%d').date()`: three dash-separated decimal
fields with the month in 1..12 and the day in 1..31; `none` models the
`ValueError` raised on anything else.  (strptime's day-in-month check
beyond 31 is not modelled; no claim depends on it.) -/
def strptimeDate (cs : List Char) : Option PyDate :=
  match splitDash cs with
  | [ys, ms, ds] =>
    match parseDigits ys, parseDigits ms, parseDigits ds with
    | some y, some m, some d =>
      if 1 ≤ m ∧ m ≤ 12 ∧ 1 ≤ d ∧ d ≤ 31 then some ⟨y, m, d⟩ else none
    | _, _, _ => none
  | _ => none

/-- The `if data['startDate']:` branch of `_createConferenceObject`
(conference.py 205-209): a truthy string is truncated to 10 characters and
parsed, and `month` is taken from the parsed date; otherwise `month` is 0
(and a falsy value is left in `data['startDate']` unchanged). -/
def startDateMonth : Option String → Except PyError (Option PyDate × Int)
  | none => .ok (none, 0)
  | some s =>
    if s = "" then .ok (none, 0)
    else
      match strptimeDate (s.data.take 10) with
      | some d => .ok (some d, (d.month : Int))
      | none => .error .valueError

/-- The `if data['endDate']:` branch (conference.py 210-211). -/
def endDateField : Option String → Except PyError (Option PyDate)
  | none => .ok none
  | some s =>
    if s = "" then .ok none
    else
      match strptimeDate (s.data.take 10) with
      | some d => .ok (some d)
      | none => .error .valueError

/-- `_createConferenceObject` (conference.py 182-231) as a function of the
caller's id and the inbound form, returning the Conference passed to
`Conference(**data).put()`.  Defaults are the `DEFAULTS` table
(conference.py 65-70), applied when the inbound value is `None` (or `[]`
for `topics`); `seatsAvailable` is overwritten with `maxAttendees` when the
latter is positive (conference.py 214-215); `organizerUserId` is always the
caller's id (conference.py 222).  A falsy (empty-string) date skips parsing
but then fails ndb's `DateProperty` validation when the entity is
constructed, which `badValue` models. -/
def createConferenceObject (user_id : String) (request : ConferenceFormIn) :
    Except PyError Conference :=
  if request.name.getD "" = "" then
    .error (.badRequest "Conference 'name' field required")
  else
    match startDateMonth request.startDate with
    | .error e => .error e
    | .ok (sd, month) =>
      match endDateField request.endDate with
      | .error e => .error e
      | .ok ed =>
        if request.startDate = some "" ∨ request.endDate = some "" then
          .error .badValue
        else
          let maxAttendees := request.maxAttendees.getD 0
          .ok { name := request.name.getD "",
                description := request.description,
                organizerUserId := user_id,
                topics := if request.topics = [] then ["Default", "Topic"] else request.topics,
                city := request.city.getD "Default City",
                startDate := sd,
                month := month,
                endDate := ed,
                maxAttendees := maxAttendees,
                seatsAvailable :=
                  if maxAttendees > 0 then maxAttendees
                  else request.seatsAvailable.getD 0 }

-- - - - Conference query filters (conference.py 72-86, 344-369) - - - -

/-- `models.ConferenceQueryForm` (models.py 113-117). -/
structure ConferenceQueryForm where
  field : String
  operator : String
  value : String
deriving DecidableEq

/-- The `FIELDS` table (conference.py 81-86); `none` models the `KeyError`
path of an unknown field name. -/
def FIELDS (f : String) : Option String :=
  if f = "CITY" then some "city"
  else if f = "TOPIC" then some "topics"
  else if f = "MONTH" then some "month"
  else if f = "MAX_ATTENDEES" then some "maxAttendees"
  else none

/-- The `OPERATORS` table (conference.py 72-79). -/
def OPERATORS (o : String) : Option String :=
  if o = "EQ" then some "="
  else if o = "GT" then some ">"
  else if o = "GTEQ" then some ">="
  else if o = "LT" then some "<"
  else if o = "LTEQ" then some "<="
  else if o = "NE" then some "!="
  else none

/-- A `filtr` dict after the `FIELDS`/`OPERATORS` translation
(conference.py 350-354). -/
structure FormattedFilter where
  field : String
  operator : String
  value : String
deriving DecidableEq

/-- The loop of `_formatFilters` (conference.py 349-368); `ineq` is the
`inequality_field` accumulator.  A `KeyError` from either table becomes the
"invalid field or operator" error; a non-`"="` operator on a field
different from an already-recorded inequality field raises the
single-inequality error, and otherwise records the field. -/
def formatFiltersFrom (ineq : Option String) :
    List ConferenceQueryForm → Except PyError (Option String × List FormattedFilter)
  | [] => .ok (ineq, [])
  | f :: rest =>
    match FIELDS f.field, OPERATORS f.operator with
    | some fld, some op =>
      if op ≠ "=" then
        match ineq with
        | some g =>
          if g ≠ fld then
            .error (.badRequest "Inequality filter is allowed on only one field.")
          else
            match formatFiltersFrom (some fld) rest with
            | .ok (i, l) => .ok (i, ⟨fld, op, f.value⟩ :: l)
            | .error e => .error e
        | none =>
          match formatFiltersFrom (some fld) rest with
          | .ok (i, l) => .ok (i, ⟨fld, op, f.value⟩ :: l)
          | .error e => .error e
      else
        match formatFiltersFrom ineq rest with
        | .ok (i, l) => .ok (i, ⟨fld, op, f.value⟩ :: l)
        | .error e => .error e
    | _, _ => .error (.badRequest "Filter contains invalid field or operator.")

/-- `_formatFilters` (conference.py 344-369): `inequality_field` starts as
`None`. -/
def formatFilters (filters : List ConferenceQueryForm) :
    Except PyError (Option String × List FormattedFilter) :=
  formatFiltersFrom none filters

-- - - - Theorems - - - -

-- Concrete entities used by witnesses and counterexamples.

/-- A session presented by Bob only (used to exercise a speaker query that
matches nothing). -/
def sessionBobTalk : Session :=
  ⟨"S", ["Bob"], [], ⟨2024, 6, 1⟩, ⟨10, 0⟩, 60, "Talk", "Room 1"⟩

/-- A conference with 2 of 2 seats still available. -/
def confOpen : Conference :=
  ⟨"C", none, "org", [], "City", none, 0, none, 2, 2⟩

/-- A conference with 0 of 2 seats available. -/
def confFull : Conference :=
  ⟨"C", none, "org", [], "City", none, 0, none, 2, 0⟩

/-- C2 (code bug): with no sessions under the conference, and with a
speaker matching no session, the session listing queries return an empty
`ok` result instead of raising NotFound: `if not sessions:` tests the
always-truthy `ndb.Query` object, so the `NotFoundException` on the next
line is unreachable. -/
theorem sessionQueries_empty_returns_ok :
    getConferenceSessions [] = .ok [] ∧
    getSessionsBySpeaker "Alice" [sessionBobTalk] = .ok [] :=
  ⟨rfl, rfl⟩

/-- C3 (code bug): every `getConferenceSessionsByType` call fails with
`AttributeError` before any validation or query runs, because the handler
reads `request.sess_type` while the combined request message declares only
`session_type` and `websafeConferenceKey`. -/
theorem getConferenceSessionsByType_always_attributeError
    (request : SessionByTypeRequest) (confSessions : List Session) :
    getConferenceSessionsByType request confSessions =
      .error (.attributeError "sess_type") := rfl

/-- C4: `registerForConference` raises Conflict on a duplicate registration
and raises Conflict when no seats remain — in both cases the transaction
aborts, so no updated record is produced — and otherwise appends the
conference key to the attending list, decrements `seatsAvailable` by
exactly 1, persists both records and returns `true`. -/
theorem registerForConference_spec (wsck : String) (prof : Profile)
    (conf : Conference) :
    (wsck ∈ prof.conferenceKeysToAttend →
      conferenceRegistration true wsck prof conf =
        .error (.conflict "You have already registered for this conference")) ∧
    (wsck ∉ prof.conferenceKeysToAttend → conf.seatsAvailable ≤ 0 →
      conferenceRegistration true wsck prof conf =
        .error (.conflict "There are no seats available.")) ∧
    (wsck ∉ prof.conferenceKeysToAttend → 0 < conf.seatsAvailable →
      conferenceRegistration true wsck prof conf =
        .ok ({ prof with conferenceKeysToAttend := prof.conferenceKeysToAttend ++ [wsck] },
             { conf with seatsAvailable := conf.seatsAvailable - 1 }, true)) := by
  refine ⟨fun h => ?_, fun h hs => ?_, fun h hs => ?_⟩ <;>
    unfold conferenceRegistration <;> simp [h]
  · exact hs
  · exact hs

/-- Witness for C4 at concrete inputs. -/
theorem registerForConference_spec_witness :
    conferenceRegistration true "k1" ⟨["k1"], []⟩ confOpen =
      .error (.conflict "You have already registered for this conference") ∧
    conferenceRegistration true "k2" ⟨["k1"], []⟩ confFull =
      .error (.conflict "There are no seats available.") ∧
    conferenceRegistration true "k2" ⟨["k1"], []⟩ confOpen =
      .ok (⟨["k1", "k2"], []⟩, { confOpen with seatsAvailable := 1 }, true) := by
  refine ⟨(registerForConference_spec "k1" ⟨["k1"], []⟩ confOpen).1 (by decide),
          (registerForConference_spec "k2" ⟨["k1"], []⟩ confFull).2.1 (by decide) (by decide),
          ?_⟩
  exact (registerForConference_spec "k2" ⟨["k1"], []⟩ confOpen).2.2 (by decide) (by decide)

/-- C8: `removeSessionFromWishlist` never raises and always reports
`false`: a present key is removed from the wishlist, an absent key leaves
the wishlist unchanged. -/
theorem removeSessionFromWishlist_spec (s_key : String) (prof : Profile) :
    removeSessionFromWishlist s_key prof =
      .ok ({ prof with session_wishlist :=
               if s_key ∈ prof.session_wishlist then prof.session_wishlist.erase s_key
               else prof.session_wishlist }, false) := by
  unfold removeSessionFromWishlist sessionWishlist
  by_cases hmem : s_key ∈ prof.session_wishlist <;> simp [hmem]

/-- C10: `addSessionToWishlist` appends any string not already wishlisted
and returns `true`.  The handler never resolves the key to a session
entity — the embedding takes no session store at all — so an arbitrary key
string is accepted. -/
theorem addSessionToWishlist_accepts_any_key (s_key : String) (prof : Profile)
    (h : s_key ∉ prof.session_wishlist) :
    addSessionToWishlist s_key prof =
      .ok ({ prof with session_wishlist := prof.session_wishlist ++ [s_key] }, true) := by
  unfold addSessionToWishlist sessionWishlist
  simp [h]

/-- Witness for C10 at a key string that names no session entity. -/
theorem addSessionToWishlist_accepts_any_key_witness :
    "no-such-session-entity" ∉ (⟨[], ["w1"]⟩ : Profile).session_wishlist ∧
    addSessionToWishlist "no-such-session-entity" ⟨[], ["w1"]⟩ =
      .ok (⟨[], ["w1", "no-such-session-entity"]⟩, true) :=
  ⟨by decide,
   addSessionToWishlist_accepts_any_key "no-such-session-entity" ⟨[], ["w1"]⟩ (by decide)⟩

-- C1: the featured-speaker scan.

/-- Splitting the inner scan: processing a concatenation processes the two
parts in sequence. -/
theorem featInner_append (a b : List String) :
    ∀ (seen : List String) (feat : String),
      featInner (a ++ b) seen feat =
        featInner b (featInner a seen feat).1 (featInner a seen feat).2 := by
  induction a with
  | nil => intro seen feat; rfl
  | cons x rest ih =>
    intro seen feat
    simp only [List.cons_append, featInner]
    split <;> exact ih _ _

/-- The nested session/speaker loops are the single scan of the flattened
(session, speaker) pair sequence. -/
theorem featOuter_eq_featInner_flatMap (sessions : List ProjSession) :
    ∀ (seen : List String) (feat : String),
      featOuter sessions seen feat =
        featInner (sessions.flatMap (fun s => s.speakers)) seen feat := by
  induction sessions with
  | nil => intro seen feat; rfl
  | cons s rest ih =>
    intro seen feat
    cases hfi : featInner s.speakers seen feat with
    | mk seen2 feat2 =>
      simp only [List.flatMap_cons, featOuter, hfi, featInner_append, ih]

/-- The scan's accumulator ends at the value of the last occurrence that had
already been seen: `seen` tracks exactly the set of values of the passed
prefix `pre`, and each repeat overwrites `feat`. -/
theorem featInner_eq_dupOccurrences (l : List String) :
    ∀ (seen pre : List String) (feat : String),
      (∀ x, x ∈ seen ↔ x ∈ pre) →
      (featInner l seen feat).2 = (dupOccurrences pre l).getLastD feat := by
  induction l with
  | nil => intro seen pre feat _; rfl
  | cons x rest ih =>
    intro seen pre feat hsp
    by_cases hx : x ∈ seen
    · have hxpre : x ∈ pre := (hsp x).1 hx
      simp only [featInner, dupOccurrences, if_pos hx, if_pos hxpre,
        List.singleton_append, List.getLastD_cons]
      refine ih seen (pre ++ [x]) x (fun y => ?_)
      simp only [List.mem_append, List.mem_singleton]
      exact ⟨fun hy => Or.inl ((hsp y).1 hy),
        fun hy => hy.elim (hsp y).2 (fun hyx => hyx ▸ hx)⟩
    · have hxpre : x ∉ pre := fun hc => hx ((hsp x).2 hc)
      simp only [featInner, dupOccurrences, if_neg hx, if_neg hxpre, List.nil_append]
      refine ih (seen ++ [x]) (pre ++ [x]) feat (fun y => ?_)
      simp only [List.mem_append, List.mem_singleton]
      exact ⟨fun hy => hy.imp (hsp y).1 id, fun hy => hy.imp (hsp y).2 id⟩

/-- C1 (amended): `_cacheFeaturedSpeaker` selects the speaker of the LAST
(session, speaker) pair in the scan whose speaker had already been
encountered earlier in the scan — the last repeat wins, not the first.  For
that speaker it composes
`"<speaker> is the featured speaker for the following sessions: <comma-joined names>"`
over every fetched session listing the speaker and stores the message in
the cache entry; with no repeat at all it deletes the entry and returns the
empty string. -/
theorem cacheFeaturedSpeaker_spec (sessions : List ProjSession) :
    cacheFeaturedSpeaker sessions =
      (let feat := (dupOccurrences [] (sessions.flatMap (fun s => s.speakers))).getLastD ""
       if feat = "" then ("", none)
       else
         (let message := feat ++ " is the featured speaker for the following sessions: " ++
            joinComma ((sessions.filter (fun s => decide (feat ∈ s.speakers))).map
              (fun s => s.name))
          (message, some message))) := by
  have hfeat : (featOuter sessions [] "").2 =
      (dupOccurrences [] (sessions.flatMap (fun s => s.speakers))).getLastD "" := by
    rw [featOuter_eq_featInner_flatMap]
    exact featInner_eq_dupOccurrences _ [] [] "" (fun x => Iff.rfl)
  unfold cacheFeaturedSpeaker
  rw [hfeat]
  by_cases h : (dupOccurrences [] (sessions.flatMap (fun s => s.speakers))).getLastD "" = ""
  · simp [h]
  · simp [h]

/-- The conference of claim C1's counterexample: speaker "A" is the first
to repeat (sessions S1, S2); speaker "B" repeats later (sessions S3, S4). -/
def featuredSessionsEx : List ProjSession :=
  [⟨"S1", ["A"]⟩, ⟨"S2", ["A"]⟩, ⟨"S3", ["B"]⟩, ⟨"S4", ["B"]⟩]

/-- C1 (counterexample): on `featuredSessionsEx` the first speaker
encountered twice in the scan is "A", yet the code's featured-speaker
message names "B" and B's sessions — the claim's "first speaker to repeat
wins" rule does not describe the code. -/
theorem cacheFeaturedSpeaker_not_first_repeat :
    specFirstRepeatFrom [] (featuredSessionsEx.flatMap (fun s => s.speakers)) = "A" ∧
    cacheFeaturedSpeaker featuredSessionsEx =
      ("B is the featured speaker for the following sessions: S3, S4",
       some "B is the featured speaker for the following sessions: S3, S4") :=
  ⟨rfl, rfl⟩

-- C5: the seat-count invariant.

theorem attendCount_nil (wsck : String) : attendCount wsck [] = 0 := rfl

theorem attendCount_cons (wsck : String) (p : Profile) (l : List Profile) :
    attendCount wsck (p :: l) =
      (p.conferenceKeysToAttend.count wsck : Int) + attendCount wsck l := by
  simp [attendCount]

theorem attendCount_nonneg (wsck : String) (profs : List Profile) :
    0 ≤ attendCount wsck profs := by
  induction profs with
  | nil => simp [attendCount_nil]
  | cons p l ih =>
    rw [attendCount_cons]
    positivity

/-- Updating caller `i`'s profile in place changes the total registration
count by the difference at that caller. -/
theorem attendCount_set (wsck : String) (profs : List Profile) :
    ∀ (i : Nat) (p : Profile), i < profs.length →
      attendCount wsck (profs.set i p) =
        attendCount wsck profs
          - ((profs.getD i ⟨[], []⟩).conferenceKeysToAttend.count wsck : Int)
          + (p.conferenceKeysToAttend.count wsck : Int) := by
  induction profs with
  | nil => intro i p h; simp at h
  | cons q rest ih =>
    intro i p h
    cases i with
    | zero =>
      simp only [List.set_cons_zero, attendCount_cons, List.getD_cons_zero]
      ring
    | succ i =>
      have hi : i < rest.length := by simpa using h
      simp only [List.set_cons_succ, attendCount_cons, List.getD_cons_succ, ih i p hi]
      ring

/-- Case analysis of a successful `_conferenceRegistration` call: a
successful registration appended the key and took one seat, a successful
unregistration removed the key and restored one seat, and an unregistration
of a non-registered caller changed nothing. -/
theorem conferenceRegistration_ok_cases (reg : Bool) (wsck : String) (prof : Profile)
    (conf : Conference) (p : Profile) (c : Conference) (b : Bool)
    (h : conferenceRegistration reg wsck prof conf = .ok (p, c, b)) :
    (wsck ∉ prof.conferenceKeysToAttend ∧ 0 < conf.seatsAvailable ∧
      p = { prof with conferenceKeysToAttend := prof.conferenceKeysToAttend ++ [wsck] } ∧
      c = { conf with seatsAvailable := conf.seatsAvailable - 1 }) ∨
    (wsck ∈ prof.conferenceKeysToAttend ∧
      p = { prof with conferenceKeysToAttend := prof.conferenceKeysToAttend.erase wsck } ∧
      c = { conf with seatsAvailable := conf.seatsAvailable + 1 }) ∨
    (p = prof ∧ c = conf) := by
  unfold conferenceRegistration at h
  cases reg with
  | true =>
    simp only [if_true] at h
    by_cases hmem : wsck ∈ prof.conferenceKeysToAttend
    · rw [if_pos hmem] at h
      cases h
    · rw [if_neg hmem] at h
      by_cases hseat : conf.seatsAvailable ≤ 0
      · rw [if_pos hseat] at h
        cases h
      · rw [if_neg hseat] at h
        injection h with h
        injection h with h1 h2
        injection h2 with h2 h3
        exact Or.inl ⟨hmem, by omega, h1.symm, h2.symm⟩
  | false =>
    simp only [Bool.false_eq_true, if_false] at h
    by_cases hmem : wsck ∈ prof.conferenceKeysToAttend
    · rw [if_pos hmem] at h
      injection h with h
      injection h with h1 h2
      injection h2 with h2 h3
      exact Or.inr (Or.inl ⟨hmem, h1.symm, h2.symm⟩)
    · rw [if_neg hmem] at h
      injection h with h
      injection h with h1 h2
      injection h2 with h2 h3
      exact Or.inr (Or.inr ⟨h1.symm, h2.symm⟩)

/-- One registration or unregistration call preserves the invariant. -/
theorem regInv_applyRegOp (wsck : String) (st : RegState) (op : Nat × Bool)
    (h : RegInv wsck st) : RegInv wsck (applyRegOp wsck st op) := by
  obtain ⟨hsum, hpos, hcount⟩ := h
  unfold applyRegOp
  by_cases hi : op.1 < st.profs.length
  · rw [if_pos hi]
    cases hc : conferenceRegistration op.2 wsck (st.profs.getD op.1 ⟨[], []⟩) st.conf with
    | error e => exact ⟨hsum, hpos, hcount⟩
    | ok res =>
      obtain ⟨p, c, b⟩ := res
      have hpmem : st.profs.getD op.1 ⟨[], []⟩ ∈ st.profs := by
        rw [List.getD_eq_getElem _ _ hi]
        exact List.getElem_mem hi
      have hple := hcount _ hpmem
      have hset := attendCount_set wsck st.profs op.1 p hi
      have hqmem : ∀ q ∈ st.profs.set op.1 p, q ∈ st.profs ∨ q = p :=
        fun q hq => List.mem_or_eq_of_mem_set hq
      rcases conferenceRegistration_ok_cases _ _ _ _ _ _ _ hc with
        ⟨hmem, hseat, hp, hcf⟩ | ⟨hmem, hp, hcf⟩ | ⟨hp, hcf⟩
      · -- successful registration: key appended, one seat taken
        have hzero : (st.profs.getD op.1 ⟨[], []⟩).conferenceKeysToAttend.count wsck = 0 :=
          List.count_eq_zero.mpr hmem
        have hcnt : p.conferenceKeysToAttend.count wsck = 1 := by
          rw [hp]
          show ((st.profs.getD op.1 ⟨[], []⟩).conferenceKeysToAttend ++ [wsck]).count wsck = 1
          simp only [List.count_append, hzero, List.count_singleton, beq_self_eq_true, if_true]
        refine ⟨?_, ?_, ?_⟩
        · show c.seatsAvailable + attendCount wsck (st.profs.set op.1 p) = c.maxAttendees
          rw [hset, hcf]
          simp only [hzero, hcnt]
          simp only [Nat.cast_zero, Nat.cast_one]
          omega
        · show 0 ≤ c.seatsAvailable
          rw [hcf]
          simp only []
          omega
        · intro q hq
          rcases hqmem q hq with hq1 | hq2
          · exact hcount q hq1
          · rw [hq2, hcnt]
      · -- successful unregistration: key removed, one seat restored
        have hone : (st.profs.getD op.1 ⟨[], []⟩).conferenceKeysToAttend.count wsck = 1 := by
          have := List.count_pos_iff.mpr hmem
          omega
        have hcnt : p.conferenceKeysToAttend.count wsck = 0 := by
          rw [hp]
          show ((st.profs.getD op.1 ⟨[], []⟩).conferenceKeysToAttend.erase wsck).count wsck = 0
          rw [List.count_erase_self, hone]
        refine ⟨?_, ?_, ?_⟩
        · show c.seatsAvailable + attendCount wsck (st.profs.set op.1 p) = c.maxAttendees
          rw [hset, hcf]
          simp only [hone, hcnt]
          simp only [Nat.cast_zero, Nat.cast_one]
          omega
        · show 0 ≤ c.seatsAvailable
          rw [hcf]
          simp only []
          omega
        · intro q hq
          rcases hqmem q hq with hq1 | hq2
          · exact hcount q hq1
          · rw [hq2, hcnt]
            omega
      · -- no-op unregistration
        refine ⟨?_, ?_, ?_⟩
        · show c.seatsAvailable + attendCount wsck (st.profs.set op.1 p) = c.maxAttendees
          rw [hset, hcf, hp]
          omega
        · show 0 ≤ c.seatsAvailable
          rw [hcf]
          exact hpos
        · intro q hq
          rcases hqmem q hq with hq1 | hq2
          · exact hcount q hq1
          · rw [hq2, hp]
            exact hple
  · rw [if_neg hi]
    exact ⟨hsum, hpos, hcount⟩

/-- A whole sequence of calls preserves the invariant. -/
theorem regInv_runRegOps (wsck : String) (ops : List (Nat × Bool)) :
    ∀ st : RegState, RegInv wsck st → RegInv wsck (runRegOps wsck st ops) := by
  induction ops with
  | nil => intro st h; exact h
  | cons o rest ih =>
    intro st h
    exact ih (applyRegOp wsck st o) (regInv_applyRegOp wsck st o h)

theorem attendCount_eq_zero (wsck : String) (profs : List Profile)
    (h : ∀ p ∈ profs, wsck ∉ p.conferenceKeysToAttend) :
    attendCount wsck profs = 0 := by
  induction profs with
  | nil => rfl
  | cons p l ih =>
    rw [attendCount_cons, ih (fun q hq => h q (List.mem_cons_of_mem p hq))]
    simp [List.count_eq_zero.mpr (h p (List.mem_cons_self p l))]

/-- C5: starting from a conference created with `maxAttendees = M ≥ 0` (so
`seatsAvailable` starts at `M`) and a caller population none of whom yet
holds the fresh conference key, every sequence of `registerForConference`
and `unregisterFromConference` calls keeps
`0 ≤ seatsAvailable ≤ maxAttendees`: registration only decrements a
positive seat count and unregistration only increments when the caller was
registered. -/
theorem seatsAvailable_invariant (wsck : String) (conf0 : Conference)
    (profs0 : List Profile) (ops : List (Nat × Bool)) (M : Int)
    (hmax : conf0.maxAttendees = M) (hseats : conf0.seatsAvailable = M)
    (hM : 0 ≤ M) (h0 : ∀ p ∈ profs0, wsck ∉ p.conferenceKeysToAttend) :
    0 ≤ (runRegOps wsck ⟨conf0, profs0⟩ ops).conf.seatsAvailable ∧
    (runRegOps wsck ⟨conf0, profs0⟩ ops).conf.seatsAvailable ≤
      (runRegOps wsck ⟨conf0, profs0⟩ ops).conf.maxAttendees := by
  have hinv : RegInv wsck ⟨conf0, profs0⟩ := by
    refine ⟨?_, ?_, ?_⟩
    · simp [hmax, hseats, attendCount_eq_zero wsck profs0 h0]
    · simp [hseats, hM]
    · intro p hp
      simp [List.count_eq_zero.mpr (h0 p hp)]
  obtain ⟨hsum, hpos, _⟩ := regInv_runRegOps wsck ops ⟨conf0, profs0⟩ hinv
  have hnn := attendCount_nonneg wsck (runRegOps wsck ⟨conf0, profs0⟩ ops).profs
  exact ⟨hpos, by omega⟩

/-- A conference with 1 of 1 seat available, as just created. -/
def confCapOne : Conference :=
  ⟨"C", none, "org", [], "City", none, 0, none, 1, 1⟩

/-- Witness for C5: two callers against a 1-seat conference, with a
register, an over-capacity register attempt, an unregister, and a
re-register. -/
theorem seatsAvailable_invariant_witness :
    0 ≤ (runRegOps "k" ⟨confCapOne, [⟨[], []⟩, ⟨[], []⟩]⟩
        [(0, true), (1, true), (0, false), (1, true)]).conf.seatsAvailable ∧
    (runRegOps "k" ⟨confCapOne, [⟨[], []⟩, ⟨[], []⟩]⟩
        [(0, true), (1, true), (0, false), (1, true)]).conf.seatsAvailable ≤
      (runRegOps "k" ⟨confCapOne, [⟨[], []⟩, ⟨[], []⟩]⟩
        [(0, true), (1, true), (0, false), (1, true)]).conf.maxAttendees :=
  seatsAvailable_invariant "k" confCapOne [⟨[], []⟩, ⟨[], []⟩]
    [(0, true), (1, true), (0, false), (1, true)] 1 rfl rfl (by decide) (by decide)

-- C6: conference creation defaults and seat initialisation.

/-- C6: a create request whose only populated field is a non-empty name
yields city "Default City", maxAttendees 0, seatsAvailable 0, topics
["Default", "Topic"] and month 0; and any successfully created conference
with `maxAttendees = M > 0` has `seatsAvailable = M`, with `month` the
month of the parsed `startDate` when one was supplied. -/
theorem createConference_defaults (user_id n : String)
    (request : ConferenceFormIn) (M : Int) (c : Conference) :
    (n ≠ "" →
      createConferenceObject user_id
          ⟨some n, none, none, [], none, none, none, none, none, none⟩ =
        .ok { name := n, description := none, organizerUserId := user_id,
              topics := ["Default", "Topic"], city := "Default City",
              startDate := none, month := 0, endDate := none,
              maxAttendees := 0, seatsAvailable := 0 }) ∧
    (createConferenceObject user_id request = .ok c →
      request.maxAttendees = some M → 0 < M →
      c.seatsAvailable = M ∧
      ∀ s d, request.startDate = some s → strptimeDate (s.data.take 10) = some d →
        c.month = (d.month : Int)) := by
  constructor
  · intro hn
    simp [createConferenceObject, startDateMonth, endDateField, hn]
  · intro hok hM hMpos
    unfold createConferenceObject at hok
    by_cases hname : request.name.getD "" = ""
    · rw [if_pos hname] at hok
      cases hok
    rw [if_neg hname] at hok
    cases hsd : startDateMonth request.startDate with
    | error e =>
      rw [hsd] at hok
      cases hok
    | ok sdm =>
      obtain ⟨sd, month⟩ := sdm
      rw [hsd] at hok
      cases hed : endDateField request.endDate with
      | error e =>
        rw [hed] at hok
        cases hok
      | ok ed =>
        rw [hed] at hok
        dsimp only at hok
        by_cases hemp : request.startDate = some "" ∨ request.endDate = some ""
        · rw [if_pos hemp] at hok
          cases hok
        rw [if_neg hemp] at hok
        injection hok with hok
        constructor
        · rw [← hok]
          show (if request.maxAttendees.getD 0 > 0 then request.maxAttendees.getD 0
            else request.seatsAvailable.getD 0) = M
          rw [hM]
          show (if (M : Int) > 0 then M else request.seatsAvailable.getD 0) = M
          rw [if_pos hMpos]
        · intro s d hs hd
          have hsne : s ≠ "" := by
            intro hcon
            exact hemp (Or.inl (hcon ▸ hs))
          rw [hs] at hsd
          unfold startDateMonth at hsd
          dsimp only at hsd
          rw [if_neg hsne, hd] at hsd
          injection hsd with hsd
          injection hsd with hsd1 hsd2
          rw [← hok]
          show month = (d.month : Int)
          rw [← hsd2]

/-- The create request of C6's witness: name, maxAttendees 50 and a start
date, nothing else. -/
def requestMax50 : ConferenceFormIn :=
  ⟨some "X", none, none, [], none, some "2024-06-15", none, some 50, none, none⟩

/-- The conference `requestMax50` creates. -/
def confMax50 : Conference :=
  { name := "X", description := none, organizerUserId := "u",
    topics := ["Default", "Topic"], city := "Default City",
    startDate := some ⟨2024, 6, 15⟩, month := 6, endDate := none,
    maxAttendees := 50, seatsAvailable := 50 }

/-- Witness for C6 at concrete requests. -/
theorem createConference_defaults_witness :
    createConferenceObject "u" ⟨some "TechConf", none, none, [], none, none,
        none, none, none, none⟩ =
      .ok { name := "TechConf", description := none, organizerUserId := "u",
            topics := ["Default", "Topic"], city := "Default City",
            startDate := none, month := 0, endDate := none,
            maxAttendees := 0, seatsAvailable := 0 } ∧
    confMax50.seatsAvailable = 50 ∧ confMax50.month = 6 := by
  refine ⟨(createConference_defaults "u" "TechConf" requestMax50 50 confMax50).1
      (by decide), ?_, ?_⟩
  · exact ((createConference_defaults "u" "TechConf" requestMax50 50 confMax50).2
      (by rfl) rfl (by decide)).1
  · exact ((createConference_defaults "u" "TechConf" requestMax50 50 confMax50).2
      (by rfl) rfl (by decide)).2 "2024-06-15" ⟨2024, 6, 15⟩ rfl (by rfl)

-- C9: the non-workshop-before-seven query.

instance : IsTotal Session sessionTimeLe :=
  ⟨fun a b => by unfold sessionTimeLe PyTime.le; omega⟩

instance : IsTrans Session sessionTimeLe :=
  ⟨fun a b c hab hbc => by
    unfold sessionTimeLe PyTime.le at hab hbc ⊢
    omega⟩

/-- C9: `nonWorkshopBeforeSeven` returns exactly the conference's sessions
whose time is strictly before 19:00 and whose type is not "Workshop" (a
permutation of that filter of the fetched list), ordered by session time,
and returns `[]` — raising no NotFound — when no session qualifies. -/
theorem nonWorkshopBeforeSeven_spec (confSessions : List Session) :
    (nonWorkshopBeforeSeven confSessions).Perm
      (confSessions.filter (fun s =>
        decide (PyTime.lt s.sess_time ⟨19, 0⟩) && decide (s.sess_type ≠ "Workshop"))) ∧
    List.Sorted sessionTimeLe (nonWorkshopBeforeSeven confSessions) ∧
    (confSessions.filter (fun s =>
        decide (PyTime.lt s.sess_time ⟨19, 0⟩) && decide (s.sess_type ≠ "Workshop")) = [] →
      nonWorkshopBeforeSeven confSessions = []) := by
  have hdrop : ∀ l : List Session,
      l.filter (fun s => decide (PyTime.le ⟨0, 0⟩ s.sess_time)) = l := by
    intro l
    rw [List.filter_eq_self]
    intro a _
    apply decide_eq_true
    unfold PyTime.le
    dsimp only
    omega
  have hout : nonWorkshopBeforeSeven confSessions =
      (List.insertionSort sessionTimeLe
        (confSessions.filter (fun s => decide (PyTime.lt s.sess_time ⟨19, 0⟩)))).filter
        (fun s => decide (s.sess_type ≠ "Workshop")) := by
    unfold nonWorkshopBeforeSeven filterSessionByTime
    dsimp only
    rw [hdrop]
  have hperm : (nonWorkshopBeforeSeven confSessions).Perm
      (confSessions.filter (fun s =>
        decide (PyTime.lt s.sess_time ⟨19, 0⟩) && decide (s.sess_type ≠ "Workshop"))) := by
    rw [hout]
    have h1 := (List.perm_insertionSort sessionTimeLe
      (confSessions.filter (fun s => decide (PyTime.lt s.sess_time ⟨19, 0⟩)))).filter
      (fun s => decide (s.sess_type ≠ "Workshop"))
    refine h1.trans ?_
    rw [List.filter_filter]
    apply List.Perm.of_eq
    apply List.filter_congr
    intro a _
    exact Bool.and_comm _ _
  refine ⟨hperm, ?_, ?_⟩
  · rw [hout]
    exact (List.sorted_insertionSort sessionTimeLe _).filter _
  · intro hnil
    rw [hnil] at hperm
    exact List.perm_nil.mp hperm

/-- A workshop at 10:00 (excluded by type). -/
def sessionWorkshopTen : Session :=
  ⟨"W", [], [], ⟨2024, 6, 1⟩, ⟨10, 0⟩, 60, "Workshop", "Room 1"⟩

/-- A talk at 20:00 (excluded by time). -/
def sessionTalkTwenty : Session :=
  ⟨"T", [], [], ⟨2024, 6, 1⟩, ⟨20, 0⟩, 60, "Talk", "Room 2"⟩

/-- Witness for C9: with only a 10:00 workshop and a 20:00 talk nothing
qualifies, and the query returns the empty list rather than an error. -/
theorem nonWorkshopBeforeSeven_spec_witness :
    nonWorkshopBeforeSeven [sessionWorkshopTen, sessionTalkTwenty] = [] :=
  (nonWorkshopBeforeSeven_spec [sessionWorkshopTen, sessionTalkTwenty]).2.2 (by decide)

-- C7: filter validation in queryConferences.

theorem FIELDS_some_cases {a v : String} (h : FIELDS a = some v) :
    (a = "CITY" ∧ v = "city") ∨ (a = "TOPIC" ∧ v = "topics") ∨
    (a = "MONTH" ∧ v = "month") ∨ (a = "MAX_ATTENDEES" ∧ v = "maxAttendees") := by
  unfold FIELDS at h
  split_ifs at h with h1 h2 h3 h4 <;> simp_all

theorem FIELDS_inj {a b v : String} (ha : FIELDS a = some v)
    (hb : FIELDS b = some v) : a = b := by
  rcases FIELDS_some_cases ha with ⟨h1, h2⟩ | ⟨h1, h2⟩ | ⟨h1, h2⟩ | ⟨h1, h2⟩ <;>
    rcases FIELDS_some_cases hb with ⟨g1, g2⟩ | ⟨g1, g2⟩ | ⟨g1, g2⟩ | ⟨g1, g2⟩ <;>
    simp_all

theorem OPERATORS_some_cases {o v : String} (h : OPERATORS o = some v) :
    (o = "EQ" ∧ v = "=") ∨ (o = "GT" ∧ v = ">") ∨ (o = "GTEQ" ∧ v = ">=") ∨
    (o = "LT" ∧ v = "<") ∨ (o = "LTEQ" ∧ v = "<=") ∨ (o = "NE" ∧ v = "!=") := by
  unfold OPERATORS at h
  split_ifs at h <;> simp_all

theorem OPERATORS_eq_iff {o v : String} (h : OPERATORS o = some v) :
    v = "=" ↔ o = "EQ" := by
  rcases OPERATORS_some_cases h with ⟨h1, h2⟩ | ⟨h1, h2⟩ | ⟨h1, h2⟩ | ⟨h1, h2⟩ |
    ⟨h1, h2⟩ | ⟨h1, h2⟩ <;> simp [h1, h2]

/-- An invalid field or operator name anywhere in the filter list makes the
loop fail with a BadRequest error (whichever of the two messages fires
first). -/
theorem formatFiltersFrom_invalid (fs : List ConferenceQueryForm) :
    ∀ ineq : Option String,
      (∃ f ∈ fs, FIELDS f.field = none ∨ OPERATORS f.operator = none) →
      ∃ m, formatFiltersFrom ineq fs = .error (.badRequest m) := by
  induction fs with
  | nil =>
    intro ineq h
    rcases h with ⟨f, hf, _⟩
    cases hf
  | cons f0 rest ih =>
    intro ineq h
    cases hF : FIELDS f0.field with
    | none =>
      exact ⟨"Filter contains invalid field or operator.", by
        simp only [formatFiltersFrom, hF]⟩
    | some fld =>
      cases hO : OPERATORS f0.operator with
      | none =>
        exact ⟨"Filter contains invalid field or operator.", by
          simp only [formatFiltersFrom, hF, hO]⟩
      | some op =>
        have hrest : ∃ f ∈ rest, FIELDS f.field = none ∨ OPERATORS f.operator = none := by
          rcases h with ⟨f, hf, hbad⟩
          rcases List.mem_cons.1 hf with rfl | hmem
          · rcases hbad with hb | hb
            · rw [hF] at hb; cases hb
            · rw [hO] at hb; cases hb
          · exact ⟨f, hmem, hbad⟩
        simp only [formatFiltersFrom, hF, hO]
        by_cases hop : op = "="
        · rw [if_neg (not_not_intro hop)]
          obtain ⟨m, hm⟩ := ih ineq hrest
          exact ⟨m, by rw [hm]⟩
        · rw [if_pos hop]
          cases ineq with
          | none =>
            dsimp only
            obtain ⟨m, hm⟩ := ih (some fld) hrest
            exact ⟨m, by rw [hm]⟩
          | some g =>
            dsimp only
            by_cases hg : g = fld
            · rw [if_neg (not_not_intro hg)]
              obtain ⟨m, hm⟩ := ih (some fld) hrest
              exact ⟨m, by rw [hm]⟩
            · rw [if_pos hg]
              exact ⟨"Inequality filter is allowed on only one field.", rfl⟩

/-- With the inequality field already recorded as `g`, the loop succeeds
when every remaining non-equality filter translates to that same field. -/
theorem formatFiltersFrom_ok (fs : List ConferenceQueryForm) :
    ∀ g : String,
      (∀ f ∈ fs, (FIELDS f.field).isSome ∧ (OPERATORS f.operator).isSome) →
      (∀ f ∈ fs, f.operator ≠ "EQ" → FIELDS f.field = some g) →
      ∃ r, formatFiltersFrom (some g) fs = .ok r := by
  induction fs with
  | nil =>
    intro g _ _
    exact ⟨(some g, []), rfl⟩
  | cons f0 rest ih =>
    intro g hval hne
    obtain ⟨hvF, hvO⟩ := hval f0 (List.mem_cons_self f0 rest)
    obtain ⟨fld, hF⟩ := Option.isSome_iff_exists.mp hvF
    obtain ⟨op, hO⟩ := Option.isSome_iff_exists.mp hvO
    simp only [formatFiltersFrom, hF, hO]
    by_cases hEQ : f0.operator = "EQ"
    · have hopeq : op = "=" := by
        rw [hEQ] at hO
        simp [OPERATORS] at hO
        exact hO.symm
      rw [if_neg (not_not_intro hopeq)]
      obtain ⟨⟨i, l⟩, hr⟩ := ih g (fun f hf => hval f (List.mem_cons_of_mem f0 hf))
        (fun f hf => hne f (List.mem_cons_of_mem f0 hf))
      exact ⟨(i, ⟨fld, op, f0.value⟩ :: l), by rw [hr]⟩
    · have hopne : op ≠ "=" := fun hcon => hEQ ((OPERATORS_eq_iff hO).mp hcon)
      have hfg : fld = g := by
        have := hne f0 (List.mem_cons_self f0 rest) hEQ
        rw [hF] at this
        exact Option.some.inj this
      rw [if_pos hopne]
      rw [if_neg (not_not_intro hfg.symm)]
      subst hfg
      obtain ⟨⟨i, l⟩, hr⟩ := ih fld (fun f hf => hval f (List.mem_cons_of_mem f0 hf))
        (fun f hf => hne f (List.mem_cons_of_mem f0 hf))
      exact ⟨(i, ⟨fld, op, f0.value⟩ :: l), by rw [hr]⟩

/-- With the inequality field already recorded as `g`, a later valid
non-equality filter on a different field fires the single-inequality
error. -/
theorem formatFiltersFrom_ineq_error (fs : List ConferenceQueryForm) :
    ∀ g : String,
      (∀ f ∈ fs, (FIELDS f.field).isSome ∧ (OPERATORS f.operator).isSome) →
      (∃ f ∈ fs, f.operator ≠ "EQ" ∧ FIELDS f.field ≠ some g) →
      formatFiltersFrom (some g) fs =
        .error (.badRequest "Inequality filter is allowed on only one field.") := by
  induction fs with
  | nil =>
    intro g _ hex
    rcases hex with ⟨f, hf, _⟩
    cases hf
  | cons f0 rest ih =>
    intro g hval hex
    obtain ⟨hvF, hvO⟩ := hval f0 (List.mem_cons_self f0 rest)
    obtain ⟨fld, hF⟩ := Option.isSome_iff_exists.mp hvF
    obtain ⟨op, hO⟩ := Option.isSome_iff_exists.mp hvO
    simp only [formatFiltersFrom, hF, hO]
    by_cases hEQ : f0.operator = "EQ"
    · have hopeq : op = "=" := by
        rw [hEQ] at hO
        simp [OPERATORS] at hO
        exact hO.symm
      rw [if_neg (not_not_intro hopeq)]
      have hrest : ∃ f ∈ rest, f.operator ≠ "EQ" ∧ FIELDS f.field ≠ some g := by
        rcases hex with ⟨f, hf, hfne, hfdiff⟩
        rcases List.mem_cons.1 hf with rfl | hmem
        · exact absurd hEQ hfne
        · exact ⟨f, hmem, hfne, hfdiff⟩
      rw [ih g (fun f hf => hval f (List.mem_cons_of_mem f0 hf)) hrest]
    · have hopne : op ≠ "=" := fun hcon => hEQ ((OPERATORS_eq_iff hO).mp hcon)
      rw [if_pos hopne]
      by_cases hfld : fld = g
      · rw [if_neg (not_not_intro hfld.symm)]
        subst hfld
        have hrest : ∃ f ∈ rest, f.operator ≠ "EQ" ∧ FIELDS f.field ≠ some fld := by
          rcases hex with ⟨f, hf, hfne, hfdiff⟩
          rcases List.mem_cons.1 hf with rfl | hmem
          · exact absurd hF hfdiff
          · exact ⟨f, hmem, hfne, hfdiff⟩
        rw [ih fld (fun f hf => hval f (List.mem_cons_of_mem f0 hf)) hrest]
      · rw [if_pos (fun hcon => hfld hcon.symm)]

/-- Starting from no recorded inequality field, two valid non-equality
filters on distinct fields fire the single-inequality error. -/
theorem formatFiltersFrom_none_error (fs : List ConferenceQueryForm) :
    (∀ f ∈ fs, (FIELDS f.field).isSome ∧ (OPERATORS f.operator).isSome) →
    (∃ f ∈ fs, ∃ h ∈ fs, f.operator ≠ "EQ" ∧ h.operator ≠ "EQ" ∧ f.field ≠ h.field) →
    formatFiltersFrom none fs =
      .error (.badRequest "Inequality filter is allowed on only one field.") := by
  induction fs with
  | nil =>
    intro _ hex
    rcases hex with ⟨f, hf, _⟩
    cases hf
  | cons f0 rest ih =>
    intro hval hex
    obtain ⟨hvF, hvO⟩ := hval f0 (List.mem_cons_self f0 rest)
    obtain ⟨fld, hF⟩ := Option.isSome_iff_exists.mp hvF
    obtain ⟨op, hO⟩ := Option.isSome_iff_exists.mp hvO
    simp only [formatFiltersFrom, hF, hO]
    by_cases hEQ : f0.operator = "EQ"
    · have hopeq : op = "=" := by
        rw [hEQ] at hO
        simp [OPERATORS] at hO
        exact hO.symm
      rw [if_neg (not_not_intro hopeq)]
      have hrest : ∃ f ∈ rest, ∃ h ∈ rest,
          f.operator ≠ "EQ" ∧ h.operator ≠ "EQ" ∧ f.field ≠ h.field := by
        rcases hex with ⟨f, hf, h, hh, hfne, hhne, hdiff⟩
        rcases List.mem_cons.1 hf with rfl | hmf
        · exact absurd hEQ hfne
        rcases List.mem_cons.1 hh with rfl | hmh
        · exact absurd hEQ hhne
        exact ⟨f, hmf, h, hmh, hfne, hhne, hdiff⟩
      rw [ih (fun f hf => hval f (List.mem_cons_of_mem f0 hf)) hrest]
    · have hopne : op ≠ "=" := fun hcon => hEQ ((OPERATORS_eq_iff hO).mp hcon)
      rw [if_pos hopne]
      have hrest : ∃ f ∈ rest, f.operator ≠ "EQ" ∧ FIELDS f.field ≠ some fld := by
        rcases hex with ⟨f, hf, h, hh, hfne, hhne, hdiff⟩
        rcases List.mem_cons.1 hf with rfl | hmf
        · rcases List.mem_cons.1 hh with rfl | hmh
          · exact absurd rfl hdiff
          · exact ⟨h, hmh, hhne, fun hc => hdiff (FIELDS_inj hF hc)⟩
        · rcases List.mem_cons.1 hh with rfl | hmh
          · exact ⟨f, hmf, hfne, fun hc => hdiff (FIELDS_inj hc hF)⟩
          · by_cases hco : FIELDS f.field = some fld
            · exact ⟨h, hmh, hhne, fun hc => hdiff (FIELDS_inj hco hc)⟩
            · exact ⟨f, hmf, hfne, hco⟩
      rw [formatFiltersFrom_ineq_error rest fld
        (fun f hf => hval f (List.mem_cons_of_mem f0 hf)) hrest]

/-- Starting from no recorded inequality field, filters whose non-equality
operators all sit on one field (repeats allowed) are accepted. -/
theorem formatFiltersFrom_none_ok (fs : List ConferenceQueryForm) :
    (∀ f ∈ fs, (FIELDS f.field).isSome ∧ (OPERATORS f.operator).isSome) →
    (∀ f ∈ fs, ∀ h ∈ fs, f.operator ≠ "EQ" → h.operator ≠ "EQ" → f.field = h.field) →
    ∃ r, formatFiltersFrom none fs = .ok r := by
  induction fs with
  | nil =>
    intro _ _
    exact ⟨(none, []), rfl⟩
  | cons f0 rest ih =>
    intro hval hshare
    obtain ⟨hvF, hvO⟩ := hval f0 (List.mem_cons_self f0 rest)
    obtain ⟨fld, hF⟩ := Option.isSome_iff_exists.mp hvF
    obtain ⟨op, hO⟩ := Option.isSome_iff_exists.mp hvO
    simp only [formatFiltersFrom, hF, hO]
    by_cases hEQ : f0.operator = "EQ"
    · have hopeq : op = "=" := by
        rw [hEQ] at hO
        simp [OPERATORS] at hO
        exact hO.symm
      rw [if_neg (not_not_intro hopeq)]
      obtain ⟨⟨i, l⟩, hr⟩ := ih (fun f hf => hval f (List.mem_cons_of_mem f0 hf))
        (fun f hf h hh => hshare f (List.mem_cons_of_mem f0 hf) h (List.mem_cons_of_mem f0 hh))
      exact ⟨(i, ⟨fld, op, f0.value⟩ :: l), by rw [hr]⟩
    · have hopne : op ≠ "=" := fun hcon => hEQ ((OPERATORS_eq_iff hO).mp hcon)
      rw [if_pos hopne]
      have hall : ∀ f ∈ rest, f.operator ≠ "EQ" → FIELDS f.field = some fld := by
        intro f hf hfne
        have hff := hshare f (List.mem_cons_of_mem f0 hf) f0
          (List.mem_cons_self f0 rest) hfne hEQ
        rw [hff]
        exact hF
      obtain ⟨⟨i, l⟩, hr⟩ := formatFiltersFrom_ok rest fld
        (fun f hf => hval f (List.mem_cons_of_mem f0 hf)) hall
      exact ⟨(i, ⟨fld, op, f0.value⟩ :: l), by rw [hr]⟩

/-- C7: a filter naming an unknown field or operator is rejected with
InvalidInput; a valid filter list using non-equality operators on two
distinct fields is rejected with the single-inequality message; and a
valid filter list whose non-equality operators sit on at most one distinct
field (repeats allowed) is accepted. -/
theorem queryConferences_filter_validation (fs : List ConferenceQueryForm) :
    ((∃ f ∈ fs, FIELDS f.field = none ∨ OPERATORS f.operator = none) →
      ∃ m, formatFilters fs = .error (.badRequest m)) ∧
    ((∀ f ∈ fs, (FIELDS f.field).isSome ∧ (OPERATORS f.operator).isSome) →
      (∃ f ∈ fs, ∃ h ∈ fs, f.operator ≠ "EQ" ∧ h.operator ≠ "EQ" ∧ f.field ≠ h.field) →
      formatFilters fs =
        .error (.badRequest "Inequality filter is allowed on only one field.")) ∧
    ((∀ f ∈ fs, (FIELDS f.field).isSome ∧ (OPERATORS f.operator).isSome) →
      (∀ f ∈ fs, ∀ h ∈ fs, f.operator ≠ "EQ" → h.operator ≠ "EQ" → f.field = h.field) →
      ∃ r, formatFilters fs = .ok r) :=
  ⟨formatFiltersFrom_invalid fs none,
   formatFiltersFrom_none_error fs,
   formatFiltersFrom_none_ok fs⟩

/-- Witness for C7: an unknown field is rejected; `month > 3` together with
`maxAttendees < 100` is rejected with the single-inequality message;
`month > 3, month < 9, city = London` is accepted. -/
theorem queryConferences_filter_validation_witness :
    (∃ m, formatFilters [⟨"BOGUS", "EQ", "x"⟩] = .error (.badRequest m)) ∧
    formatFilters [⟨"MONTH", "GT", "3"⟩, ⟨"MAX_ATTENDEES", "LT", "100"⟩] =
      .error (.badRequest "Inequality filter is allowed on only one field.") ∧
    (∃ r, formatFilters [⟨"MONTH", "GT", "3"⟩, ⟨"MONTH", "LT", "9"⟩,
      ⟨"CITY", "EQ", "London"⟩] = .ok r) :=
  ⟨(queryConferences_filter_validation [⟨"BOGUS", "EQ", "x"⟩]).1
      ⟨⟨"BOGUS", "EQ", "x"⟩, List.mem_cons_self _ _, Or.inl rfl⟩,
   (queryConferences_filter_validation
        [⟨"MONTH", "GT", "3"⟩, ⟨"MAX_ATTENDEES", "LT", "100"⟩]).2.1
      (by decide)
      ⟨⟨"MONTH", "GT", "3"⟩, by decide, ⟨"MAX_ATTENDEES", "LT", "100"⟩, by decide,
        by decide, by decide, by decide⟩,
   (queryConferences_filter_validation [⟨"MONTH", "GT", "3"⟩, ⟨"MONTH", "LT", "9"⟩,
        ⟨"CITY", "EQ", "London"⟩]).2.2
      (by decide) (by decide)⟩
